import Mathlib

/-!
Verification of the protocol engine of h89trans.py (a host-side driver
that moves floppy-disk images and staged loader binaries to and from a
Heathkit H89 over a serial link).

Shallow embedding.  The serial channel is modelled as a finite list of
read events of type Option Nat: the i-th element is the outcome of the
i-th one-byte read performed by the code (some b = the byte b arrived,
none = that read timed out and returned an empty bytes object).  An
exhausted list behaves like a channel on which every further read
times out.  Serial writes are collected into lists of byte values.
Blocking loops that would spin forever on such a channel (wait_char
with no matching byte left) are modelled as returning none ("blocked"),
since they never produce an observable result.

Python values that matter for cross-type comparisons (the bytes
object stored in char_of_wait versus the str literal used in
check_read_error) are modelled by the PyVal type, whose equality test
pyEq mirrors Python ==: values of different runtime types are unequal.
-/

/-- A Python runtime value as far as the comparisons in h89trans.py
need: None, a bytes object (list of byte values), or a str. -/
inductive PyVal where
  | pyNone : PyVal
  | pyBytes : List Nat → PyVal
  | pyStr : String → PyVal
  deriving DecidableEq, Repr

/-- Python == between the runtime values modelled by PyVal: values of
different types compare unequal (bytes == str is False in Python 3). -/
def pyEq : PyVal → PyVal → Bool
  | PyVal.pyNone, PyVal.pyNone => true
  | PyVal.pyBytes a, PyVal.pyBytes b => a = b
  | PyVal.pyStr a, PyVal.pyStr b => a = b
  | _, _ => false

/-- bytes.upper() on a single byte: ASCII lowercase letters are mapped
to uppercase, everything else is unchanged. -/
def upperByte (b : Nat) : Nat :=
  if 97 ≤ b ∧ b ≤ 122 then b - 32 else b

/-- The mutable fields of the H89Trans instance that the protocol
operations read or write (__init__, lines 102-115 of h89trans.py). -/
structure St where
  vol : Nat
  override : Bool
  char_of_wait : PyVal
  read_errors : Nat
  num_tracks : Nat
  track_size : Nat
  interleave_factor : Nat
  deriving DecidableEq, Repr

/-- The state built by H89Trans.__init__: volume 0, no override,
char_of_wait None, 40 tracks of 2560 bytes, interleave 1:1. -/
def initSt : St :=
  { vol := 0, override := false, char_of_wait := PyVal.pyNone,
    read_errors := 0, num_tracks := 40, track_size := 2560,
    interleave_factor := 1 }

/-- Direction an image file was opened in (fp_dir in the source:
"to h89" for an existing file to send, "from h89" for a new file to
receive into). -/
inductive Dir where
  | toH89 : Dir
  | fromH89 : Dir
  deriving DecidableEq, Repr

/-- One self.ser.read(1) call: pops the next read event; an exhausted
event list means every further read times out. -/
def readOne : List (Option Nat) → Option Nat × List (Option Nat)
  | [] => (none, [])
  | r :: rest => (r, rest)

/-- wait_char (lines 176-195): loops reading one byte at a time; every
received byte is stored raw in char_of_wait, the loop ends when a byte
case-folds to the case-folded target.  Timeouts (none events) are
skipped (`if not raw: continue`).  If no matching byte ever arrives the
real loop spins forever; that is modelled as none. -/
def wait_char (target : Nat) : List (Option Nat) → St → Option (St × List (Option Nat))
  | [], _ => none
  | none :: rest, st => wait_char target rest st
  | some b :: rest, st =>
    let st1 := { st with char_of_wait := PyVal.pyBytes [b] }
    if upperByte b = upperByte target then some (st1, rest)
    else wait_char target rest st1

/-- check_read_error (lines 325-329): returns whether the
"Read error was detected on this track!" message fires
(char_of_wait == 'r', a bytes-versus-str comparison) and the updated
state; read_errors is incremented unconditionally. -/
def check_read_error (st : St) : Bool × St :=
  (pyEq st.char_of_wait (PyVal.pyStr "r"),
   { st with read_errors := st.read_errors + 1 })

/-- Result of send_volume: the range-check failure, a forever-blocked
ack wait, or success with the updated state and remaining channel. -/
inductive SvRes where
  | rangeError : St → SvRes
  | blocked : SvRes
  | ok : St → List (Option Nat) → SvRes
  deriving DecidableEq, Repr

/-- send_volume (lines 197-207).  The argument is Option Nat: none is
Python's None default.  `if not vol: vol = self.vol` treats both None
and 0 as falsy, so volume 0 is replaced by the session volume.  Then
the range guard, then write b'V', write the volume byte, wait_char('V').
Returns (bytes written to the serial port, result). -/
def send_volume (st : St) (vol? : Option Nat) (inp : List (Option Nat)) :
    List Nat × SvRes :=
  let v := match vol? with
    | none => st.vol
    | some w => if w = 0 then st.vol else w
  if 255 < v then ([], SvRes.rangeError st)
  else
    match wait_char 86 inp st with
    | none => ([86, v], SvRes.blocked)
    | some (st1, rest) => ([86, v], SvRes.ok st1 rest)

/-- Result of get_disk_volume: success, a round whose one-byte volume
read returned nothing (the function returns False at once), or a
forever-blocked wait_char('C'). -/
inductive GdvRes where
  | ok : St → List (Option Nat) → GdvRes
  | noResponse : St → List (Option Nat) → GdvRes
  | blocked : GdvRes
  deriving DecidableEq, Repr

/-- One round of get_disk_volume (lines 285-294): write b'C', read one
byte; if none arrives return False immediately, else store it in
self.vol and wait_char('C'). -/
def gdv_round (st : St) (inp : List (Option Nat)) : List Nat × GdvRes :=
  match readOne inp with
  | (none, rest) => ([67], GdvRes.noResponse st rest)
  | (some v, inp1) =>
    let st1 := { st with vol := v }
    match wait_char 67 inp1 st1 with
    | none => ([67], GdvRes.blocked)
    | some (st2, inp2) => ([67], GdvRes.ok st2 inp2)

/-- get_disk_volume (lines 275-295): performs the round twice
(`for _ in range(2)`); the second round's volume byte overwrites the
first in self.vol. -/
def get_disk_volume (st : St) (inp : List (Option Nat)) : List Nat × GdvRes :=
  match gdv_round st inp with
  | (w1, GdvRes.ok st1 inp1) =>
    match gdv_round st1 inp1 with
    | (w2, r) => (w1 ++ w2, r)
  | (w1, r) => (w1, r)

/-- Result of read_track_volume_problem: no response (returns True),
blocked ack wait, a volume mismatch (returns True), or success
(returns False). -/
inductive TvRes where
  | noResponse : TvRes
  | blocked : TvRes
  | mismatch : St → List (Option Nat) → TvRes
  | ok : St → List (Option Nat) → TvRes
  deriving DecidableEq, Repr

/-- read_track_volume_problem (lines 308-323): write b'T', read the
track volume byte (treat no response as an error), wait_char('T'),
then compare with self.vol. -/
def read_track_volume_problem (st : St) (inp : List (Option Nat)) : TvRes :=
  match readOne inp with
  | (none, _) => TvRes.noResponse
  | (some tv, inp1) =>
    match wait_char 84 inp1 st with
    | none => TvRes.blocked
    | some (st1, inp2) =>
      if tv ≠ st1.vol then TvRes.mismatch st1 inp2 else TvRes.ok st1 inp2

/-- n consecutive self.ser.read(1) calls whose received bytes are
accumulated with bytearray.extend (a timed-out read contributes
nothing), as in the inner loop of read_disk (lines 365-366). -/
def readBytes : Nat → List (Option Nat) → List Nat × List (Option Nat)
  | 0, inp => ([], inp)
  | n + 1, inp =>
    let r := readOne inp
    let rb := readBytes n r.2
    (r.1.toList ++ rb.1, rb.2)

/-- The per-track loop of read_disk (lines 361-369): for each track
write b'R', read track_size bytes one at a time, wait_char('R'),
check_read_error, and append the track buffer.  Returns none when a
wait_char('R') blocks forever, else the final state, the remaining
channel and the track buffers in track order. -/
def readTracks (tsz : Nat) :
    Nat → St → List (Option Nat) → Option (St × List (Option Nat) × List (List Nat))
  | 0, st, inp => some (st, inp, [])
  | n + 1, st, inp =>
    match wait_char 82 (readBytes tsz inp).2 st with
    | none => none
    | some (st1, inp1) =>
      match readTracks tsz n (check_read_error st1).2 inp1 with
      | none => none
      | some (st3, inp2, bufs) => some (st3, inp2, (readBytes tsz inp).1 :: bufs)

/-- Local names bound in the scope of read_disk (its parameter and the
names assigned inside it): the completion message's f-string is
evaluated in this scope. -/
def readDiskLocals : List String := ["self", "track", "buffer", "_", "e"]

/-- Module-level names defined in h89trans.py. -/
def moduleGlobals : List String :=
  ["serial", "sys", "os", "time", "DEBUG", "get_key", "errout",
   "H89Trans", "split_octal", "prtchr", "s", "main", "__name__"]

/-- Python builtins referenced by the module. -/
def pyBuiltins : List String :=
  ["print", "range", "open", "input", "ord", "len", "int", "type",
   "bytes", "bytearray", "exit", "enumerate", "sorted", "reversed",
   "str", "assert", "struct"]

/-- Python name resolution as seen from inside read_disk: a name
resolves iff it is a read_disk local, a module global, or a builtin.
An unresolvable name raises NameError. -/
def nameInScope (n : String) : Bool :=
  readDiskLocals.contains n || moduleGlobals.contains n || pyBuiltins.contains n

/-- Result of the phase of read_disk before the track loop: the
liveness probe and (without override) the volume negotiation. -/
inductive PreRes where
  | notAlive : PreRes
  | volNoResponse : PreRes
  | volBlocked : PreRes
  | trackVolNoResponse : PreRes
  | trackVolMismatch : PreRes
  | trackVolBlocked : PreRes
  | ok : St → List (Option Nat) → PreRes
  deriving DecidableEq, Repr

/-- Lines 342-352 of read_disk: is_h89ldr2_alive writes b'A' and does
one bounded read (any byte means alive); then, unless override is set,
get_disk_volume and read_track_volume_problem must both succeed. -/
def read_preamble (st : St) (inp : List (Option Nat)) : PreRes :=
  match readOne inp with
  | (none, _) => PreRes.notAlive
  | (some _, inp1) =>
    if st.override then PreRes.ok st inp1
    else
      match (get_disk_volume st inp1).2 with
      | GdvRes.noResponse _ _ => PreRes.volNoResponse
      | GdvRes.blocked => PreRes.volBlocked
      | GdvRes.ok st1 inp2 =>
        match read_track_volume_problem st1 inp2 with
        | TvRes.noResponse => PreRes.trackVolNoResponse
        | TvRes.blocked => PreRes.trackVolBlocked
        | TvRes.mismatch _ _ => PreRes.trackVolMismatch
        | TvRes.ok st2 inp3 => PreRes.ok st2 inp3

/-- How a read_disk call ends.  complete is the branch that would
print the "Read Complete" message and the read-error warning; it is
taken only if the name fname used by that message resolves. -/
inductive RdOut where
  | notOpen : RdOut
  | wrongDir : RdOut
  | notAlive : RdOut
  | volNoResponse : RdOut
  | volBlocked : RdOut
  | trackVolNoResponse : RdOut
  | trackVolMismatch : RdOut
  | trackVolBlocked : RdOut
  | blocked : RdOut
  | nameError : RdOut
  | complete : RdOut
  deriving DecidableEq, Repr

/-- Observable result of read_disk: outcome, the track buffers written
to the image file in order, the final session state, and whether the
file was closed. -/
structure RdRes where
  outcome : RdOut
  tracksOut : List (List Nat)
  st : St
  fileClosed : Bool
  deriving DecidableEq, Repr

/-- read_disk (lines 331-380): file-direction guards, preamble, zero
the error counter, write the initial b'R', run the per-track loop,
close the file, then evaluate the completion report - whose f-string
names fname, resolved with nameInScope. -/
def read_disk (st : St) (fpOpen : Bool) (d : Dir) (inp : List (Option Nat)) : RdRes :=
  if ¬ fpOpen then ⟨RdOut.notOpen, [], st, false⟩
  else if d = Dir.toH89 then ⟨RdOut.wrongDir, [], st, false⟩
  else
    match read_preamble st inp with
    | PreRes.notAlive => ⟨RdOut.notAlive, [], st, false⟩
    | PreRes.volNoResponse => ⟨RdOut.volNoResponse, [], st, false⟩
    | PreRes.volBlocked => ⟨RdOut.volBlocked, [], st, false⟩
    | PreRes.trackVolNoResponse => ⟨RdOut.trackVolNoResponse, [], st, false⟩
    | PreRes.trackVolMismatch => ⟨RdOut.trackVolMismatch, [], st, false⟩
    | PreRes.trackVolBlocked => ⟨RdOut.trackVolBlocked, [], st, false⟩
    | PreRes.ok st1 inp1 =>
      match readTracks st1.track_size st1.num_tracks
          { st1 with read_errors := 0 } inp1 with
      | none => ⟨RdOut.blocked, [], st1, false⟩
      | some (st2, _, bufs) =>
        if nameInScope "fname" then ⟨RdOut.complete, bufs, st2, true⟩
        else ⟨RdOut.nameError, bufs, st2, true⟩

/-- The channel events of a full image reception: for each track its
data bytes (all arriving) followed by one ack byte a. -/
def trackInput (tracks : List (List Nat)) (a : Nat) : List (Option Nat) :=
  (tracks.map (fun t => t.map some ++ [some a])).flatten

/-- BOOTSTRP.ASM's region (class constants, lines 92-100). -/
def BBEGIN : Nat := 0x2300

/-- Last byte of the BOOTSTRP region. -/
def BEND : Nat := 0x2329

/-- H89LDR2.ASM's ORG. -/
def LBEGIN : Nat := 0x2329

/-- H89LDR2.ASM's DBEND. -/
def LEND : Nat := 0x265B

/-- H89LDR2.BIN's size, LEND - LBEGIN (818 bytes). -/
def LDR_SIZE : Nat := LEND - LBEGIN

/-- Floppy RAM start (ABSLDR's ORG). -/
def FBEGIN : Nat := 0x1400

/-- Floppy RAM last byte, 0x1800 - 1. -/
def FEND : Nat := 0x1800 - 1

/-- The `if self.ser.in_waiting > 0` drain at the start of write_loader
(lines 515-519): reads and discards the bytes currently buffered; in the
event model it consumes the leading some events and the none event of
the poll that found the buffer empty. -/
def flushInput : List (Option Nat) → List Nat × List (Option Nat)
  | [] => ([], [])
  | none :: rest => ([], rest)
  | some b :: rest =>
    let fr := flushInput rest
    (b :: fr.1, fr.2)

/-- The reverse-order send loop of write_loader (lines 522-529), taking
the loader bytes already reversed.  Each iteration polls in_waiting
(one channel event): if a byte is available it is read, and a b'?'
aborts the upload ("Already loaded?"); otherwise the next loader byte
is written.  Returns (bytes written, aborted-early flag, remaining
events). -/
def sendLoop : List Nat → List (Option Nat) → List Nat × Bool × List (Option Nat)
  | [], inp => ([], false, inp)
  | b :: bs, some c :: rest =>
    if c = 63 then ([], true, rest)
    else
      let r := sendLoop bs rest
      (b :: r.1, r.2.1, r.2.2)
  | b :: bs, none :: rest =>
    let r := sendLoop bs rest
    (b :: r.1, r.2.1, r.2.2)
  | b :: bs, [] =>
    let r := sendLoop bs []
    (b :: r.1, r.2.1, r.2.2)

/-- How write_loader ends. -/
inductive WlOut where
  | sizeError : WlOut
  | alreadyLoaded : WlOut
  | blocked : WlOut
  | ok : WlOut
  deriving DecidableEq, Repr

/-- Observable result of write_loader: outcome, the bytes discarded by
the initial drain, and the loader bytes actually written (one serial
write each, in the order sent). -/
structure WlRes where
  outcome : WlOut
  flushed : List Nat
  sent : List Nat
  deriving DecidableEq, Repr

/-- write_loader (lines 499-545) on loader file contents data: reject
unless the file is exactly ldr_size bytes, drain the input buffer,
stream the bytes last-to-first with the per-byte abort check, then
write 40 zero bytes, write b'A' and wait_char('?'). -/
def write_loader (st : St) (data : List Nat) (ldr_size : Nat)
    (inp : List (Option Nat)) : WlRes :=
  if data.length ≠ ldr_size then ⟨WlOut.sizeError, [], []⟩
  else
    let fl := flushInput inp
    let sl := sendLoop data.reverse fl.2
    if sl.2.1 then ⟨WlOut.alreadyLoaded, fl.1, sl.1⟩
    else
      match wait_char 63 sl.2.2 st with
      | none => ⟨WlOut.blocked, fl.1, sl.1⟩
      | some _ => ⟨WlOut.ok, fl.1, sl.1⟩

/-- struct.unpack of the little-endian 16-bit pair (lo, hi). -/
def le16 (lo hi : Nat) : Nat := lo + 256 * hi

/-- struct.unpack('<HHHH', s) on the 8 header bytes of an ABS file
(line 594): (magic, load address, length, entry point); fewer or more
than 8 bytes raise struct.error. -/
def unpackHHHH : List Nat → Option (Nat × Nat × Nat × Nat)
  | [a, b, c, d, e, f, g, h] => some (le16 a b, le16 c d, le16 e f, le16 g h)
  | _ => none

/-- Which of send_abs's diagnostics fire (lines 599-616). -/
structure AbsDiag where
  beyond64K : Bool
  overwritesAbsldr : Bool
  overwritesBootstrap : Bool
  overwritesQuartershim : Bool
  multipartNote : Bool
  entryOutsideWarning : Bool
  magicError : Bool
  deriving DecidableEq, Repr

/-- The diagnostic checks of send_abs on a parsed header, with
endaddr = addr + len as computed on line 599. -/
def absDiagnostics (magic addr len entry : Nat) : AbsDiag :=
  let endaddr := addr + len
  { beyond64K := decide (0xFFFF < endaddr)
    overwritesAbsldr := decide (addr ≤ FEND) && decide (FBEGIN ≤ endaddr)
    overwritesBootstrap := decide (addr ≤ BEND) && decide (BBEGIN ≤ endaddr)
    overwritesQuartershim := decide (addr ≤ LEND) && decide (LBEGIN ≤ endaddr)
    multipartNote := decide (entry = FBEGIN)
    entryOutsideWarning :=
      !decide (entry = FBEGIN) && (decide (entry < addr) || decide (endaddr < entry))
    magicError := !decide (magic = 0x00FF) && !decide (magic = 0x01FF) }

/-- get_image_volume (lines 382-398) with the image file open: seek to
0x900, read one byte; if the file has a byte there it becomes self.vol;
returns self.vol either way. -/
def get_image_volume (st : St) (file : List Nat) : Nat × St :=
  match file.drop 0x900 with
  | [] => (st.vol, st)
  | b :: _ => (b, { st with vol := b })

/-- A read from the image file: (offset, number of bytes requested). -/
def fileReadAt (file : List Nat) (pos n : Nat) : List Nat :=
  (file.drop pos).take n

/-- How the per-track write loop ends. -/
inductive WtOut where
  | short : WtOut
  | blocked : WtOut
  | ok : WtOut
  deriving DecidableEq, Repr

/-- Observable result of the per-track write loop: outcome, final
state, remaining channel events, serial bytes written, and the log of
image-file reads as (offset, length) pairs. -/
structure WtRes where
  outcome : WtOut
  st : St
  rest : List (Option Nat)
  serOut : List Nat
  reads : List (Nat × Nat)
  deriving DecidableEq, Repr

/-- The per-track loop of write_disk (lines 485-490): for each track,
read_track_from_image reads track_size bytes at the current file
position (a short read calls errout and kills the program), then write
b'W', write the track bytes, wait_char('W'). -/
def writeTracks (file : List Nat) (tsz : Nat) :
    Nat → St → Nat → List (Option Nat) → WtRes
  | 0, st, _, inp => ⟨WtOut.ok, st, inp, [], []⟩
  | n + 1, st, pos, inp =>
    let data := fileReadAt file pos tsz
    if data.length ≠ tsz then ⟨WtOut.short, st, inp, [], [(pos, tsz)]⟩
    else
      match wait_char 87 inp st with
      | none => ⟨WtOut.blocked, st, inp, 87 :: data, [(pos, tsz)]⟩
      | some (st1, inp1) =>
        let r := writeTracks file tsz n st1 (pos + tsz) inp1
        ⟨r.outcome, r.st, r.rest, 87 :: data ++ r.serOut, (pos, tsz) :: r.reads⟩

/-- How write_disk ends. -/
inductive WdOut where
  | notOpen : WdOut
  | wrongDir : WdOut
  | volRange : WdOut
  | volBlocked : WdOut
  | ilvBlocked : WdOut
  | shortRead : WdOut
  | trackBlocked : WdOut
  | ok : WdOut
  deriving DecidableEq, Repr

/-- Observable result of write_disk: outcome, serial bytes written,
the log of image-file reads as (offset, length) pairs, final state. -/
structure WdRes where
  outcome : WdOut
  serOut : List Nat
  fileReads : List (Nat × Nat)
  st : St
  deriving DecidableEq, Repr

/-- write_disk (lines 459-497): file-direction guards; choose the
volume to announce - the session volume when override is set, else the
byte get_image_volume reads at file offset 0x900; send_volume;
send_interleave (write b'I' and interleave_factor - 1, wait_char('I'));
write the b'W' start marker; then the per-track loop from file
position 0. -/
def write_disk (st : St) (fpOpen : Bool) (d : Dir) (file : List Nat)
    (inp : List (Option Nat)) : WdRes :=
  if ¬ fpOpen then ⟨WdOut.notOpen, [], [], st⟩
  else if d = Dir.fromH89 then ⟨WdOut.wrongDir, [], [], st⟩
  else
    let vr : Nat × St × List (Nat × Nat) :=
      if st.override then (st.vol, st, [])
      else
        let gv := get_image_volume st file
        (gv.1, gv.2, [(0x900, 1)])
    let sv := send_volume vr.2.1 (some vr.1) inp
    match sv.2 with
    | SvRes.rangeError st1 => ⟨WdOut.volRange, sv.1, vr.2.2, st1⟩
    | SvRes.blocked => ⟨WdOut.volBlocked, sv.1, vr.2.2, vr.2.1⟩
    | SvRes.ok st1 inp1 =>
      let iw := [73, st1.interleave_factor - 1]
      match wait_char 73 inp1 st1 with
      | none => ⟨WdOut.ilvBlocked, sv.1 ++ iw, vr.2.2, st1⟩
      | some (st2, inp2) =>
        let wt := writeTracks file st2.track_size st2.num_tracks st2 0 inp2
        let base := sv.1 ++ iw ++ [87]
        match wt.outcome with
        | WtOut.short => ⟨WdOut.shortRead, base ++ wt.serOut, vr.2.2 ++ wt.reads, wt.st⟩
        | WtOut.blocked => ⟨WdOut.trackBlocked, base ++ wt.serOut, vr.2.2 ++ wt.reads, wt.st⟩
        | WtOut.ok => ⟨WdOut.ok, base ++ wt.serOut, vr.2.2 ++ wt.reads, wt.st⟩

/-- Any state returned by wait_char has a one-byte bytes object (the
raw received byte) stored in char_of_wait. -/
theorem wait_char_char (target : Nat) :
    ∀ (inp : List (Option Nat)) (st st' : St) (rest : List (Option Nat)),
    wait_char target inp st = some (st', rest) →
    ∃ b : Nat, st'.char_of_wait = PyVal.pyBytes [b] := by
  intro inp
  induction inp with
  | nil => intro st st' rest h; simp [wait_char] at h
  | cons x xs ih =>
    intro st st' rest h
    cases x with
    | none => exact ih _ _ _ (by simpa [wait_char] using h)
    | some b =>
      simp only [wait_char] at h
      split at h
      · obtain ⟨h1, _⟩ := Prod.mk.injEq .. ▸ Option.some.injEq .. ▸ h
        exact ⟨b, by rw [← h1]⟩
      · exact ih _ _ _ h

/-- Claim C3: wait_char never surfaces an ack mismatch as an error.
For any expected letter, any finite prefix of received bytes none of
which case-folds to the case-folded target (interleaved with timeouts)
is skipped with no retry bound, and the call returns exactly at the
first byte whose case-folded value matches, storing that raw un-folded
byte in char_of_wait and changing nothing else in the session state. -/
theorem claim3_thm (target : Nat) (st : St) (pre rest : List (Option Nat)) (b : Nat)
    (hpre : ∀ c : Nat, some c ∈ pre → upperByte c ≠ upperByte target)
    (hb : upperByte b = upperByte target) :
    wait_char target (pre ++ some b :: rest) st
      = some ({ st with char_of_wait := PyVal.pyBytes [b] }, rest) := by
  revert hpre
  induction pre generalizing st with
  | nil =>
    intro _
    simp [wait_char, hb]
  | cons x xs ih =>
    intro hpre
    have hx : ∀ c : Nat, some c ∈ xs → upperByte c ≠ upperByte target :=
      fun c hc => hpre c (List.mem_cons_of_mem _ hc)
    cases x with
    | none => simpa [wait_char] using ih _ hx
    | some c =>
      have hne : upperByte c ≠ upperByte target := hpre c (by simp)
      simp only [List.cons_append, wait_char, if_neg hne]
      exact ih _ hx

/-- Witness for C3: waiting for R (0x52) past a mismatched a (0x61)
and a timeout, the lowercase r (0x72) case-folds to R, ends the wait
and is stored raw. -/
theorem claim3_w :
    wait_char 82 [some 97, none, some 114] initSt
      = some ({ initSt with char_of_wait := PyVal.pyBytes [114] }, []) :=
  claim3_thm 82 initSt [some 97, none] [] 114
    (by intro c hc; simp at hc; subst hc; decide) (by decide)

/-- Claim C10: every acknowledgment byte that wait_char stores in
char_of_wait is a bytes value, and check_read_error compares it against
the str 'r', which is false for every byte value, so the
"Read error was detected on this track!" branch never fires. -/
theorem claim10_thm (target : Nat) (inp : List (Option Nat)) (st st' : St)
    (rest : List (Option Nat)) (h : wait_char target inp st = some (st', rest)) :
    (check_read_error st').1 = false := by
  obtain ⟨b, hb⟩ := wait_char_char target inp st st' rest h
  simp [check_read_error, hb, pyEq]

/-- Witness for C10: after an ack wait that received the byte 0x72,
the read-error message still does not fire. -/
theorem claim10_w :
    (check_read_error { initSt with char_of_wait := PyVal.pyBytes [114] }).1 = false :=
  claim10_thm 82 [some 114] initSt
    { initSt with char_of_wait := PyVal.pyBytes [114] } [] (by rfl)

/-- Claim C4: get_disk_volume performs exactly two
{write C, read one volume byte, wait_char C} rounds; the second
round's volume byte overwrites the first in session state; and when a
round's volume-byte read returns nothing the call fails immediately
after that round's single write, performing no further rounds. -/
theorem claim4_thm :
    (∀ (st : St) (v1 a1 v2 a2 : Nat) (rest : List (Option Nat)),
      upperByte a1 = 67 → upperByte a2 = 67 →
      get_disk_volume st (some v1 :: some a1 :: some v2 :: some a2 :: rest)
        = ([67, 67],
           GdvRes.ok { st with vol := v2, char_of_wait := PyVal.pyBytes [a2] } rest))
    ∧ (∀ (st : St) (rest : List (Option Nat)),
      get_disk_volume st (none :: rest) = ([67], GdvRes.noResponse st rest))
    ∧ (∀ (st : St) (v1 a1 : Nat) (rest : List (Option Nat)),
      upperByte a1 = 67 →
      get_disk_volume st (some v1 :: some a1 :: none :: rest)
        = ([67, 67],
           GdvRes.noResponse
             { st with vol := v1, char_of_wait := PyVal.pyBytes [a1] } rest)) := by
  refine ⟨?_, ?_, ?_⟩
  · intro st v1 a1 v2 a2 rest h1 h2
    have e1 : upperByte a1 = upperByte 67 := by rw [h1]; decide
    have e2 : upperByte a2 = upperByte 67 := by rw [h2]; decide
    simp [get_disk_volume, gdv_round, readOne, wait_char, e1, e2]
  · intro st rest
    simp [get_disk_volume, gdv_round, readOne]
  · intro st v1 a1 rest h1
    have e1 : upperByte a1 = upperByte 67 := by rw [h1]; decide
    simp [get_disk_volume, gdv_round, readOne, wait_char, e1]

/-- Witness for C4: a clean double round with volumes 1 then 2 and
acks C and c (case-folded), a first-read timeout, and a second-round
timeout, instantiating all three parts of the theorem. -/
theorem claim4_w :
    get_disk_volume initSt [some 1, some 67, some 2, some 99]
      = ([67, 67],
         GdvRes.ok { initSt with vol := 2, char_of_wait := PyVal.pyBytes [99] } [])
    ∧ get_disk_volume initSt [none]
      = ([67], GdvRes.noResponse initSt [])
    ∧ get_disk_volume initSt [some 1, some 67, none]
      = ([67, 67],
         GdvRes.noResponse
           { initSt with vol := 1, char_of_wait := PyVal.pyBytes [67] } []) :=
  ⟨claim4_thm.1 initSt 1 67 2 99 [] (by decide) (by decide),
   claim4_thm.2.1 initSt [],
   claim4_thm.2.2 initSt 1 67 [] (by decide)⟩

/-- Claim C5 (amended): for volumes v in [1, 255], send_volume writes
exactly the two bytes V then v and performs one ack wait for V.  (For
v = 0 the session volume is substituted, see the counterexample.) -/
theorem claim5_thm (st : St) (v a : Nat) (rest : List (Option Nat))
    (h1 : 1 ≤ v) (h2 : v ≤ 255) (ha : upperByte a = 86) :
    send_volume st (some v) (some a :: rest)
      = ([86, v], SvRes.ok { st with char_of_wait := PyVal.pyBytes [a] } rest) := by
  have hv : ¬ v = 0 := by omega
  have h255 : ¬ (255 < v) := by omega
  have ea : upperByte a = upperByte 86 := by rw [ha]; decide
  simp [send_volume, wait_char, hv, h255, ea]

/-- Witness for C5 (amended): volume 5 is sent as the two bytes
0x56, 0x05 followed by one ack wait for V. -/
theorem claim5_w :
    send_volume initSt (some 5) [some 86]
      = ([86, 5], SvRes.ok { initSt with char_of_wait := PyVal.pyBytes [86] } []) :=
  claim5_thm initSt 5 86 [] (by decide) (by decide) (by decide)

/-- Counterexample to C5 as stated: 0 is a valid volume, but
send_volume(0) on a session whose stored volume is 7 writes the bytes
V, 7 - not V, 0 - because Python's `if not vol` treats 0 as unset. -/
theorem claim5_cex :
    (send_volume { initSt with vol := 7 } (some 0) [some 86]).1 = [86, 7]
    ∧ (send_volume { initSt with vol := 7 } (some 0) [some 86]).1 ≠ [86, 0] := by
  decide

/-- Claim C7 (amended): the header bytes FF 00 00 14 00 01 00 14 parse
to magic 0x00FF, load address 0x1400, length 0x0100, entry 0x1400;
the derived end address addr + length is 0x1500; the multipart note
fires, the overwrites-ABSLDR warning fires, and no other diagnostic
fires. -/
theorem claim7_amended :
    unpackHHHH [0xFF, 0x00, 0x00, 0x14, 0x00, 0x01, 0x00, 0x14]
      = some (0x00FF, 0x1400, 0x0100, 0x1400)
    ∧ 0x1400 + 0x0100 = 0x1500
    ∧ absDiagnostics 0x00FF 0x1400 0x0100 0x1400
      = ⟨false, true, false, false, true, false, false⟩ := by
  decide

/-- Counterexample to C7 as stated: the end address send_abs computes
for this header is addr + length = 0x1500, not 0x14FF, and a warning
does fire - the load range [0x1400, 0x1500] meets the floppy-RAM
window, so the "overwrites ABSLDR and will fail" warning prints. -/
theorem claim7_cex :
    unpackHHHH [0xFF, 0x00, 0x00, 0x14, 0x00, 0x01, 0x00, 0x14]
      = some (0x00FF, 0x1400, 0x0100, 0x1400)
    ∧ 0x1400 + 0x0100 ≠ 0x14FF
    ∧ (absDiagnostics 0x00FF 0x1400 0x0100 0x1400).overwritesAbsldr = true := by
  decide


/-- A state returned by wait_char agrees with the entry state on every
field other than char_of_wait. -/
theorem wait_char_fields (target : Nat) :
    ∀ (inp : List (Option Nat)) (st st' : St) (rest : List (Option Nat)),
    wait_char target inp st = some (st', rest) →
    st'.vol = st.vol ∧ st'.read_errors = st.read_errors
    ∧ st'.num_tracks = st.num_tracks ∧ st'.track_size = st.track_size
    ∧ st'.override = st.override
    ∧ st'.interleave_factor = st.interleave_factor := by
  intro inp
  induction inp with
  | nil => intro st st' rest h; simp [wait_char] at h
  | cons x xs ih =>
    intro st st' rest h
    cases x with
    | none => exact ih _ _ _ (by simpa [wait_char] using h)
    | some b =>
      simp only [wait_char] at h
      split at h
      · obtain ⟨h1, _⟩ := Prod.mk.injEq .. ▸ Option.some.injEq .. ▸ h
        rw [← h1]
        simp
      · have h2 := ih _ _ _ h
        simpa using h2

/-- Reading exactly the bytes of t (all arriving) consumes them and
returns them in order. -/
theorem readBytes_data (t : List Nat) (rest : List (Option Nat)) :
    readBytes t.length (t.map some ++ rest) = (t, rest) := by
  induction t with
  | nil => rfl
  | cons b bs ih => simp [readBytes, readOne, ih]

/-- n timed-out reads contribute no bytes and consume n events. -/
theorem readBytes_timeout (n : Nat) (rest : List (Option Nat)) :
    readBytes n (List.replicate n (none : Option Nat) ++ rest) = ([], rest) := by
  induction n with
  | zero => rfl
  | succ k ih => simp [readBytes, readOne, List.replicate_succ, ih]

/-- Unfolding rule for one successful iteration of the track loop. -/
theorem readTracks_succ (tsz n : Nat) (st st1 st3 : St)
    (inp inp1 inp2 : List (Option Nat)) (bufs : List (List Nat))
    (hw : wait_char 82 (readBytes tsz inp).2 st = some (st1, inp1))
    (hrec : readTracks tsz n (check_read_error st1).2 inp1 = some (st3, inp2, bufs)) :
    readTracks tsz (n + 1) st inp
      = some (st3, inp2, (readBytes tsz inp).1 :: bufs) := by
  rw [readTracks]
  simp only [hw, hrec]

/-- The track loop on a channel that delivers every data byte and one
matching ack per track returns exactly the given track buffers in
order and increments read_errors once per track. -/
theorem readTracks_data (tsz a : Nat) (ha : upperByte a = 82) :
    ∀ (tracks : List (List Nat)) (st : St) (rest : List (Option Nat)),
    (∀ t ∈ tracks, t.length = tsz) →
    ∃ st2 : St,
      readTracks tsz tracks.length st (trackInput tracks a ++ rest)
        = some (st2, rest, tracks)
      ∧ st2.read_errors = st.read_errors + tracks.length := by
  have ea : upperByte a = upperByte 82 := by rw [ha]; decide
  intro tracks
  induction tracks with
  | nil =>
    intro st rest _
    exact ⟨st, by simp [readTracks, trackInput], by simp⟩
  | cons t ts ih =>
    intro st rest hall
    have ht : t.length = tsz := hall t (by simp)
    subst ht
    have hts : ∀ u ∈ ts, u.length = t.length := fun u hu => hall u (by simp [hu])
    obtain ⟨st2, heq, herr⟩ :=
      ih { st with char_of_wait := PyVal.pyBytes [a],
                   read_errors := st.read_errors + 1 } rest hts
    have hinp : trackInput (t :: ts) a ++ rest
        = t.map some ++ (some a :: (trackInput ts a ++ rest)) := by
      simp [trackInput]
    have hrb : readBytes t.length (trackInput (t :: ts) a ++ rest)
        = (t, some a :: (trackInput ts a ++ rest)) := by
      rw [hinp]; exact readBytes_data t _
    have hw : wait_char 82 (readBytes t.length (trackInput (t :: ts) a ++ rest)).2 st
        = some ({ st with char_of_wait := PyVal.pyBytes [a] },
                trackInput ts a ++ rest) := by
      rw [hrb]; simp [wait_char, ea]
    have hrec : readTracks t.length ts.length
        (check_read_error { st with char_of_wait := PyVal.pyBytes [a] }).2
        (trackInput ts a ++ rest) = some (st2, rest, ts) := heq
    refine ⟨st2, ?_, ?_⟩
    · rw [List.length_cons,
        readTracks_succ t.length ts.length st _ st2 _ _ rest ts hw hrec, hrb]
    · have herr2 : st2.read_errors = st.read_errors + 1 + ts.length := by
        simpa using herr
      simp only [List.length_cons]
      omega

/-- The track loop on a channel where every data read times out but
every per-track ack arrives returns an empty buffer for every track. -/
theorem readTracks_timeouts (tsz : Nat) :
    ∀ (k : Nat) (st : St) (rest : List (Option Nat)),
    ∃ st2 : St,
      readTracks tsz k st
          ((List.replicate k
              (List.replicate tsz (none : Option Nat) ++ [some 82])).flatten ++ rest)
        = some (st2, rest, List.replicate k []) := by
  intro k
  induction k with
  | zero => intro st rest; exact ⟨st, by simp [readTracks]⟩
  | succ n ih =>
    intro st rest
    obtain ⟨st2, heq⟩ :=
      ih { st with char_of_wait := PyVal.pyBytes [82],
                   read_errors := st.read_errors + 1 } rest
    have hinp : (List.replicate (n + 1)
          (List.replicate tsz (none : Option Nat) ++ [some 82])).flatten ++ rest
        = List.replicate tsz (none : Option Nat)
          ++ (some 82 ::
              ((List.replicate n
                  (List.replicate tsz (none : Option Nat)
                   ++ [some 82])).flatten ++ rest)) := by
      simp [List.replicate_succ]
    have hrb : readBytes tsz ((List.replicate (n + 1)
          (List.replicate tsz (none : Option Nat) ++ [some 82])).flatten ++ rest)
        = ([], some 82 ::
            ((List.replicate n
                (List.replicate tsz (none : Option Nat)
                 ++ [some 82])).flatten ++ rest)) := by
      rw [hinp]; exact readBytes_timeout tsz _
    have hw : wait_char 82 (readBytes tsz ((List.replicate (n + 1)
          (List.replicate tsz (none : Option Nat) ++ [some 82])).flatten ++ rest)).2 st
        = some ({ st with char_of_wait := PyVal.pyBytes [82] },
            (List.replicate n
                (List.replicate tsz (none : Option Nat)
                 ++ [some 82])).flatten ++ rest) := by
      rw [hrb]; simp [wait_char]
    have hrec : readTracks tsz n
        (check_read_error { st with char_of_wait := PyVal.pyBytes [82] }).2
        ((List.replicate n
            (List.replicate tsz (none : Option Nat) ++ [some 82])).flatten ++ rest)
        = some (st2, rest, List.replicate n []) := heq
    refine ⟨st2, ?_⟩
    rw [readTracks_succ tsz n st _ st2 _ _ rest (List.replicate n []) hw hrec, hrb]
    simp [List.replicate_succ]

/-- A completed track loop increments read_errors exactly once per
track (unconditionally) and yields one buffer per track. -/
theorem readTracks_errors (tsz : Nat) :
    ∀ (n : Nat) (st st2 : St) (inp rest : List (Option Nat)) (bufs : List (List Nat)),
    readTracks tsz n st inp = some (st2, rest, bufs) →
    st2.read_errors = st.read_errors + n ∧ bufs.length = n := by
  intro n
  induction n with
  | zero =>
    intro st st2 inp rest bufs h
    simp [readTracks] at h
    obtain ⟨h1, _, h3⟩ := h
    simp [← h1, ← h3]
  | succ k ih =>
    intro st st2 inp rest bufs h
    rw [readTracks] at h
    cases hw : wait_char 82 (readBytes tsz inp).2 st with
    | none => rw [hw] at h; simp at h
    | some p =>
      obtain ⟨stw, inp1⟩ := p
      rw [hw] at h
      have hwerr : stw.read_errors = st.read_errors :=
        (wait_char_fields 82 (readBytes tsz inp).2 st stw inp1 hw).2.1
      cases hrec : readTracks tsz k (check_read_error stw).2 inp1 with
      | none => simp only [hrec] at h; simp at h
      | some q =>
        obtain ⟨st3, inp2, bufs'⟩ := q
        simp only [hrec, Option.some.injEq, Prod.mk.injEq] at h
        obtain ⟨h1, _, h3⟩ := h
        obtain ⟨e1, e2⟩ := ih (check_read_error stw).2 st3 inp1 inp2 bufs' hrec
        have e1' : st3.read_errors = st.read_errors + 1 + k := by
          have : (check_read_error stw).2.read_errors = stw.read_errors + 1 := by
            simp [check_read_error]
          omega
        constructor
        · rw [← h1]; omega
        · rw [← h3]; simp [e2]

/-- Computation rule for read_disk on a receive-direction file when the
preamble succeeds and the track loop completes: the buffers are written
to the file and the file is closed, then the completion report raises
NameError because the name fname used in its f-string does not resolve
in read_disk's scope. -/
theorem read_disk_run (st st1 st2 : St) (inp inp1 rest : List (Option Nat))
    (bufs : List (List Nat))
    (hp : read_preamble st inp = PreRes.ok st1 inp1)
    (hr : readTracks st1.track_size st1.num_tracks
            { st1 with read_errors := 0 } inp1 = some (st2, rest, bufs)) :
    read_disk st true Dir.fromH89 inp = ⟨RdOut.nameError, bufs, st2, true⟩ := by
  have hname : nameInScope "fname" = false := by decide
  simp [read_disk, hp, hr, hname]

/-- Lists all of length c flatten to (number of lists) * c elements. -/
theorem flatten_len_const (c : Nat) :
    ∀ (l : List (List Nat)), (∀ t ∈ l, t.length = c) →
    l.flatten.length = l.length * c := by
  intro l
  induction l with
  | nil => simp
  | cons t ts ih =>
    intro h
    have h1 : t.length = c := h t (by simp)
    have h2 : ts.flatten.length = ts.length * c :=
      ih (fun u hu => h u (by simp [hu]))
    simp [h1, h2]
    ring

/-- Claim C1 (amended): in every read_disk run whose preamble succeeds
and in which every track data byte arrives and every per-track ack
arrives, exactly 40 track buffers of 2560 bytes each are appended to
the output file in track order, 102400 bytes in all.  (Acks alone are
not enough: a timed-out data read shortens a track, see the
counterexample.) -/
theorem claim1_thm (st st1 : St) (inp inp1 : List (Option Nat))
    (tracks : List (List Nat)) (a : Nat)
    (hp : read_preamble st inp = PreRes.ok st1 inp1)
    (hi : inp1 = trackInput tracks a) (ha : upperByte a = 82)
    (hn : st1.num_tracks = 40) (hts : st1.track_size = 2560)
    (hlen : tracks.length = 40) (hall : ∀ t ∈ tracks, t.length = 2560) :
    (read_disk st true Dir.fromH89 inp).tracksOut = tracks
    ∧ (read_disk st true Dir.fromH89 inp).tracksOut.length = 40
    ∧ (∀ t ∈ (read_disk st true Dir.fromH89 inp).tracksOut, t.length = 2560)
    ∧ (read_disk st true Dir.fromH89 inp).tracksOut.flatten.length = 102400 := by
  have hall' : ∀ t ∈ tracks, t.length = st1.track_size := by
    rw [hts]; exact hall
  obtain ⟨st2, heq, _⟩ :=
    readTracks_data st1.track_size a ha tracks { st1 with read_errors := 0 } [] hall'
  rw [List.append_nil] at heq
  have hnum : st1.num_tracks = tracks.length := by rw [hn, hlen]
  rw [← hnum] at heq
  rw [← hi] at heq
  rw [read_disk_run st st1 st2 inp inp1 [] tracks hp heq]
  refine ⟨rfl, hlen, hall, ?_⟩
  rw [flatten_len_const 2560 tracks hall, hlen]

/-- Claim C2: in every read_disk run whose preamble succeeds and whose
40-track loop completes, the final read_errors is exactly 40 - the
counter is zeroed at the start of the run and incremented
unconditionally once per track, whatever the ack bytes were. -/
theorem claim2_thm (st st1 st2 : St) (inp inp1 rest : List (Option Nat))
    (bufs : List (List Nat))
    (hp : read_preamble st inp = PreRes.ok st1 inp1)
    (hn : st1.num_tracks = 40)
    (hr : readTracks st1.track_size st1.num_tracks
            { st1 with read_errors := 0 } inp1 = some (st2, rest, bufs)) :
    (read_disk st true Dir.fromH89 inp).st.read_errors = 40 := by
  obtain ⟨e1, _⟩ :=
    readTracks_errors st1.track_size st1.num_tracks
      { st1 with read_errors := 0 } st2 inp1 rest bufs hr
  rw [read_disk_run st st1 st2 inp inp1 rest bufs hp hr]
  rw [hn] at e1
  simpa using e1

/-- Claim C9: in every read_disk run whose preamble succeeds and in
which all 40 full tracks and their acks arrive, the 102400 bytes are
written and the file closed, and then the completion report evaluates
the unresolvable name fname: the run ends in NameError, and the
"Read Complete" branch (which would also report the read-error count)
is never reached. -/
theorem claim9_thm (st st1 : St) (inp inp1 : List (Option Nat))
    (tracks : List (List Nat)) (a : Nat)
    (hp : read_preamble st inp = PreRes.ok st1 inp1)
    (hi : inp1 = trackInput tracks a) (ha : upperByte a = 82)
    (hn : st1.num_tracks = 40) (hts : st1.track_size = 2560)
    (hlen : tracks.length = 40) (hall : ∀ t ∈ tracks, t.length = 2560) :
    (read_disk st true Dir.fromH89 inp).outcome = RdOut.nameError
    ∧ (read_disk st true Dir.fromH89 inp).outcome ≠ RdOut.complete
    ∧ (read_disk st true Dir.fromH89 inp).fileClosed = true
    ∧ (read_disk st true Dir.fromH89 inp).tracksOut.flatten.length = 102400
    ∧ nameInScope "fname" = false := by
  have hall' : ∀ t ∈ tracks, t.length = st1.track_size := by
    rw [hts]; exact hall
  obtain ⟨st2, heq, _⟩ :=
    readTracks_data st1.track_size a ha tracks { st1 with read_errors := 0 } [] hall'
  rw [List.append_nil] at heq
  have hnum : st1.num_tracks = tracks.length := by rw [hn, hlen]
  rw [← hnum] at heq
  rw [← hi] at heq
  rw [read_disk_run st st1 st2 inp inp1 [] tracks hp heq]
  refine ⟨rfl, by simp, rfl, ?_, by decide⟩
  rw [flatten_len_const 2560 tracks hall, hlen]

/-- The session state of a run with override set (skipping the volume
negotiation), as used by the witnesses. -/
def stW : St := { initSt with override := true }

/-- A full 40-track image of zero bytes. -/
def tracksW : List (List Nat) := List.replicate 40 (List.replicate 2560 0)

/-- Channel events of a complete reception of tracksW: one byte for
the liveness probe, then per track 2560 data bytes and the ack R. -/
def inpW : List (Option Nat) := some 0 :: trackInput tracksW 82

/-- Witness for C1 (amended): a concrete full run over 40 tracks of
2560 zero bytes. -/
theorem claim1_w :
    (read_disk stW true Dir.fromH89 inpW).tracksOut = tracksW
    ∧ (read_disk stW true Dir.fromH89 inpW).tracksOut.length = 40
    ∧ (∀ t ∈ (read_disk stW true Dir.fromH89 inpW).tracksOut, t.length = 2560)
    ∧ (read_disk stW true Dir.fromH89 inpW).tracksOut.flatten.length = 102400 :=
  claim1_thm stW stW inpW (trackInput tracksW 82) tracksW 82 (by rfl) rfl
    (by decide) (by rfl) (by rfl) (by rfl)
    (by intro t ht; rw [List.eq_of_mem_replicate ht, List.length_replicate])

/-- Witness for C9: the same concrete full run ends in NameError with
the file closed on the complete 102400-byte image. -/
theorem claim9_w :
    (read_disk stW true Dir.fromH89 inpW).outcome = RdOut.nameError
    ∧ (read_disk stW true Dir.fromH89 inpW).outcome ≠ RdOut.complete
    ∧ (read_disk stW true Dir.fromH89 inpW).fileClosed = true
    ∧ (read_disk stW true Dir.fromH89 inpW).tracksOut.flatten.length = 102400
    ∧ nameInScope "fname" = false :=
  claim9_thm stW stW inpW (trackInput tracksW 82) tracksW 82 (by rfl) rfl
    (by decide) (by rfl) (by rfl) (by rfl)
    (by intro t ht; rw [List.eq_of_mem_replicate ht, List.length_replicate])

/-- Witness for C2: a concrete completed 40-track run (track size 1 to
keep the evaluation small) ends with read_errors = 40. -/
def stS : St := { initSt with override := true, track_size := 1 }

/-- The 40 one-byte tracks of the C2 witness. -/
def tracksS : List (List Nat) := List.replicate 40 [0]

/-- Channel events of the C2 witness run. -/
def inpS : List (Option Nat) := some 0 :: trackInput tracksS 82

/-- Witness for C2: the concrete completed run yields read_errors 40. -/
theorem claim2_w :
    (read_disk stS true Dir.fromH89 inpS).st.read_errors = 40 :=
  claim2_thm stS stS
    { stS with char_of_wait := PyVal.pyBytes [82], read_errors := 40 }
    inpS (trackInput tracksS 82) [] tracksS (by rfl) (by rfl) (by decide)

/-- The C1 counterexample channel: the liveness byte, then for each of
the 40 tracks 2560 timed-out reads followed by the ack R - every
per-track acknowledgment arrives, yet not one data byte does. -/
def cexInput : List (Option Nat) :=
  some 0 :: (List.replicate 40
    (List.replicate 2560 (none : Option Nat) ++ [some 82])).flatten

/-- Counterexample to C1 as stated: a run in which all 40 per-track
acknowledgments arrive (the loop completes, reaching the NameError
report), yet every track buffer is empty and 0 bytes - not 102400 -
are written, because each data read timed out. -/
theorem claim1_cex :
    (read_disk stW true Dir.fromH89 cexInput).outcome = RdOut.nameError
    ∧ (read_disk stW true Dir.fromH89 cexInput).tracksOut = List.replicate 40 []
    ∧ (read_disk stW true Dir.fromH89 cexInput).tracksOut.flatten.length ≠ 102400 := by
  obtain ⟨st2, heq⟩ :=
    readTracks_timeouts 2560 40 { stW with read_errors := 0 } []
  rw [List.append_nil] at heq
  have hp : read_preamble stW cexInput
      = PreRes.ok stW ((List.replicate 40
          (List.replicate 2560 (none : Option Nat) ++ [some 82])).flatten) := by
    rfl
  have hr : readTracks stW.track_size stW.num_tracks
      { stW with read_errors := 0 }
      ((List.replicate 40
          (List.replicate 2560 (none : Option Nat) ++ [some 82])).flatten)
      = some (st2, [], List.replicate 40 []) := heq
  rw [read_disk_run stW stW st2 cexInput _ [] (List.replicate 40 []) hp hr]
  refine ⟨rfl, rfl, ?_⟩
  simp

/-- LDR_SIZE is 818 bytes. -/
theorem ldr_size_eq : LDR_SIZE = 818 := by decide

/-- The events left after the initial drain are events of the original
channel. -/
theorem flushInput_subset :
    ∀ (inp : List (Option Nat)), ∀ e ∈ (flushInput inp).2, e ∈ inp := by
  intro inp
  induction inp with
  | nil => simp [flushInput]
  | cons x xs ih =>
    cases x with
    | none =>
      intro e he
      simp only [flushInput] at he
      exact List.mem_cons_of_mem _ he
    | some b =>
      intro e he
      simp only [flushInput] at he
      exact List.mem_cons_of_mem _ (ih e he)

/-- If no question-mark byte is ever available, the send loop writes
every byte and never aborts. -/
theorem sendLoop_no_abort :
    ∀ (ds : List Nat) (inp : List (Option Nat)),
    some 63 ∉ inp →
    (sendLoop ds inp).1 = ds ∧ (sendLoop ds inp).2.1 = false := by
  intro ds
  induction ds with
  | nil => intro inp _; simp [sendLoop]
  | cons b bs ih =>
    intro inp h
    cases inp with
    | nil =>
      obtain ⟨e1, e2⟩ := ih [] (by simp)
      simp [sendLoop, e1, e2]
    | cons x xs =>
      cases x with
      | none =>
        obtain ⟨e1, e2⟩ := ih xs (fun hx => h (List.mem_cons_of_mem _ hx))
        simp [sendLoop, e1, e2]
      | some c =>
        have hc : ¬ c = 63 := by
          intro hc; subst hc; exact h (by simp)
        obtain ⟨e1, e2⟩ := ih xs (fun hx => h (List.mem_cons_of_mem _ hx))
        simp [sendLoop, hc, e1, e2]

/-- If a question-mark byte becomes available after j sends, the send
loop stops at once having written exactly the first j bytes. -/
theorem sendLoop_abort :
    ∀ (j : Nat) (ds : List Nat) (rest : List (Option Nat)), j < ds.length →
    sendLoop ds (List.replicate j (none : Option Nat) ++ some 63 :: rest)
      = (ds.take j, true, rest) := by
  intro j
  induction j with
  | zero =>
    intro ds rest h
    cases ds with
    | nil => simp at h
    | cons b bs => simp [sendLoop]
  | succ n ih =>
    intro ds rest h
    cases ds with
    | nil => simp at h
    | cons b bs =>
      have hrec := ih bs rest (by simpa using h)
      simp [List.replicate_succ, sendLoop, hrec]

/-- Claim C6: an 818-byte loader image is sent in exactly 818
single-byte writes in strict reverse index order when no ? byte ever
turns up, and if a ? is available before the k-th remaining byte
(after j = 818 - k bytes have been sent), the upload stops with
exactly j bytes sent and reports "already loaded" rather than an
error. -/
theorem claim6_thm :
    (∀ (st : St) (data : List Nat) (inp : List (Option Nat)),
      data.length = LDR_SIZE → some 63 ∉ inp →
      (write_loader st data LDR_SIZE inp).sent = data.reverse
      ∧ (write_loader st data LDR_SIZE inp).sent.length = 818
      ∧ (write_loader st data LDR_SIZE inp).outcome ≠ WlOut.alreadyLoaded)
    ∧ (∀ (st : St) (data : List Nat) (j : Nat) (rest : List (Option Nat)),
      data.length = LDR_SIZE → j < LDR_SIZE →
      (write_loader st data LDR_SIZE
          (none :: (List.replicate j (none : Option Nat) ++ some 63 :: rest))).outcome
        = WlOut.alreadyLoaded
      ∧ (write_loader st data LDR_SIZE
          (none :: (List.replicate j (none : Option Nat) ++ some 63 :: rest))).sent
        = data.reverse.take j) := by
  constructor
  · intro st data inp hlen h63
    have h63' : some 63 ∉ (flushInput inp).2 :=
      fun hx => h63 (flushInput_subset inp _ hx)
    obtain ⟨e1, e2⟩ := sendLoop_no_abort data.reverse (flushInput inp).2 h63'
    cases hw : wait_char 63 (sendLoop data.reverse (flushInput inp).2).2.2 st with
    | none =>
      simp [write_loader, hlen, e1, e2, hw, ldr_size_eq]
    | some p =>
      simp [write_loader, hlen, e1, e2, hw, ldr_size_eq]
  · intro st data j rest hlen hj
    have habort := sendLoop_abort j data.reverse rest (by simp [hlen, hj])
    simp [write_loader, hlen, flushInput, habort]

set_option maxRecDepth 4000 in
/-- Witness for C6: a concrete 818-byte image of zeros, once with a
quiet channel (all 818 bytes sent, reversed) and once with a ? after
two sends (exactly 2 bytes sent, already-loaded exit). -/
theorem claim6_w :
    ((write_loader initSt (List.replicate 818 0) LDR_SIZE []).sent
        = (List.replicate 818 0).reverse
      ∧ (write_loader initSt (List.replicate 818 0) LDR_SIZE []).sent.length = 818
      ∧ (write_loader initSt (List.replicate 818 0) LDR_SIZE []).outcome
          ≠ WlOut.alreadyLoaded)
    ∧ ((write_loader initSt (List.replicate 818 0) LDR_SIZE
          (none :: (List.replicate 2 (none : Option Nat) ++ some 63 :: []))).outcome
        = WlOut.alreadyLoaded
      ∧ (write_loader initSt (List.replicate 818 0) LDR_SIZE
          (none :: (List.replicate 2 (none : Option Nat) ++ some 63 :: []))).sent
        = (List.replicate 818 0).reverse.take 2) :=
  ⟨claim6_thm.1 initSt (List.replicate 818 0) [] (by rfl) (by simp),
   claim6_thm.2 initSt (List.replicate 818 0) 2 [] (by rfl) (by decide)⟩

/-- A successful send_volume leaves every field except char_of_wait
unchanged. -/
theorem send_volume_fields (st : St) (v? : Option Nat) (inp : List (Option Nat))
    (st1 : St) (rest : List (Option Nat))
    (h : (send_volume st v? inp).2 = SvRes.ok st1 rest) :
    st1.track_size = st.track_size ∧ st1.num_tracks = st.num_tracks
    ∧ st1.interleave_factor = st.interleave_factor ∧ st1.vol = st.vol := by
  simp only [send_volume] at h
  split at h
  · simp at h
  · cases hw : wait_char 86 inp st with
    | none => rw [hw] at h; simp at h
    | some p =>
      obtain ⟨stw, r⟩ := p
      rw [hw] at h
      simp only [Prod.snd, SvRes.ok.injEq] at h
      obtain ⟨e1, _⟩ := h
      have hf := wait_char_fields 86 inp st stw r hw
      rw [← e1]
      exact ⟨hf.2.2.2.1, hf.2.2.1, hf.2.2.2.2.2, hf.1⟩

/-- Every image-file read logged by the per-track write loop requests
exactly tsz bytes. -/
theorem writeTracks_reads (file : List Nat) (tsz : Nat) :
    ∀ (n : Nat) (st : St) (pos : Nat) (inp : List (Option Nat)),
    ∀ p ∈ (writeTracks file tsz n st pos inp).reads, p.2 = tsz := by
  intro n
  induction n with
  | zero => intro st pos inp p hp; simp [writeTracks] at hp
  | succ k ih =>
    intro st pos inp p hp
    simp only [writeTracks] at hp
    split at hp
    · simp at hp
      simp [hp]
    · cases hw : wait_char 87 inp st with
      | none =>
        rw [hw] at hp
        simp at hp
        simp [hp]
      | some q =>
        obtain ⟨st1, inp1⟩ := q
        rw [hw] at hp
        simp at hp
        rcases hp with hp | hp
        · simp [hp]
        · exact ih st1 (pos + tsz) inp1 p hp

/-- With override set, every image-file read a write_disk run performs
requests track_size bytes (the whole-track reads); no one-byte
volume read at 0x900 ever happens. -/
theorem write_disk_reads_override (st : St) (file : List Nat)
    (inp : List (Option Nat)) (hov : st.override = true) :
    ∀ p ∈ (write_disk st true Dir.toH89 file inp).fileReads, p.2 = st.track_size := by
  intro p hp
  cases hsv : (send_volume st (some st.vol) inp).2 with
  | rangeError st1 => simp [write_disk, hov, hsv] at hp
  | blocked => simp [write_disk, hov, hsv] at hp
  | ok st1 inp1 =>
    have hf1 := send_volume_fields st (some st.vol) inp st1 inp1 hsv
    cases hw : wait_char 73 inp1 st1 with
    | none => simp [write_disk, hov, hsv, hw] at hp
    | some q =>
      obtain ⟨st2, inp2⟩ := q
      have hf2 := wait_char_fields 73 inp1 st1 st2 inp2 hw
      have hq := writeTracks_reads file st2.track_size st2.num_tracks st2 0 inp2 p
      cases ho : (writeTracks file st2.track_size st2.num_tracks st2 0 inp2).outcome with
      | short =>
        simp [write_disk, hov, hsv, hw, ho] at hp
        rw [hq hp, hf2.2.2.2.1, hf1.1]
      | blocked =>
        simp [write_disk, hov, hsv, hw, ho] at hp
        rw [hq hp, hf2.2.2.2.1, hf1.1]
      | ok =>
        simp [write_disk, hov, hsv, hw, ho] at hp
        rw [hq hp, hf2.2.2.2.1, hf1.1]

/-- Claim C8 (amended): write_disk reads the byte at file offset 0x900
as the volume (a one-byte read at 0x900) exactly when override is
false - with override set, no one-byte read at 0x900 occurs and the
volume byte announced on the wire is the session volume.  The byte at
offset 0x900 is nevertheless still read with override set, as part of
the track-size whole-track reads (see the counterexample). -/
theorem claim8_thm :
    (∀ (st : St) (file : List Nat) (inp : List (Option Nat)),
      st.override = true → st.track_size = 2560 →
      ∀ p ∈ (write_disk st true Dir.toH89 file inp).fileReads,
        p ≠ ((0x900 : Nat), (1 : Nat)))
    ∧ (∀ (st : St) (file : List Nat) (inp : List (Option Nat)),
      st.override = false →
      (write_disk st true Dir.toH89 file inp).fileReads.head?
        = some ((0x900 : Nat), (1 : Nat)))
    ∧ (∀ (st : St) (file : List Nat) (inp : List (Option Nat)),
      st.override = true → st.vol ≤ 255 →
      (write_disk st true Dir.toH89 file inp).serOut.take 2 = [86, st.vol]) := by
  refine ⟨?_, ?_, ?_⟩
  · intro st file inp hov hts p hp heq
    have h2 := write_disk_reads_override st file inp hov p hp
    rw [heq, hts] at h2
    simp at h2
  · intro st file inp hov
    cases hsv : (send_volume (get_image_volume st file).2
        (some (get_image_volume st file).1) inp).2 with
    | rangeError st1 => simp [write_disk, hov, hsv]
    | blocked => simp [write_disk, hov, hsv]
    | ok st1 inp1 =>
      cases hw : wait_char 73 inp1 st1 with
      | none => simp [write_disk, hov, hsv, hw]
      | some q =>
        obtain ⟨st2, inp2⟩ := q
        cases ho : (writeTracks file st2.track_size st2.num_tracks st2 0 inp2).outcome with
        | short => simp [write_disk, hov, hsv, hw, ho]
        | blocked => simp [write_disk, hov, hsv, hw, ho]
        | ok => simp [write_disk, hov, hsv, hw, ho]
  · intro st file inp hov hvol
    have h255 : ¬ 255 < st.vol := by omega
    cases hw : wait_char 86 inp st with
    | none =>
      have hsv : send_volume st (some st.vol) inp = ([86, st.vol], SvRes.blocked) := by
        simp [send_volume, h255, hw]
      simp [write_disk, hov, hsv]
    | some p =>
      obtain ⟨stw, inpw⟩ := p
      have hsv : send_volume st (some st.vol) inp
          = ([86, st.vol], SvRes.ok stw inpw) := by
        simp [send_volume, h255, hw]
      cases hw2 : wait_char 73 inpw stw with
      | none => simp [write_disk, hov, hsv, hw2]
      | some q =>
        obtain ⟨st2, inp2⟩ := q
        cases ho : (writeTracks file st2.track_size st2.num_tracks st2 0 inp2).outcome with
        | short => simp [write_disk, hov, hsv, hw2, ho]
        | blocked => simp [write_disk, hov, hsv, hw2, ho]
        | ok => simp [write_disk, hov, hsv, hw2, ho]

/-- Witness for C8 (amended): with override and session volume 3 no
one-byte read at 0x900 occurs and the wire carries V, 3; without
override the first file operation is the one-byte read at 0x900. -/
theorem claim8_w :
    (((0x900 : Nat), (1 : Nat)) ∉
        (write_disk { initSt with override := true, vol := 3 } true
          Dir.toH89 [] []).fileReads)
    ∧ (write_disk initSt true Dir.toH89 [] []).fileReads.head?
        = some ((0x900 : Nat), (1 : Nat))
    ∧ (write_disk { initSt with override := true, vol := 3 } true
        Dir.toH89 [] []).serOut.take 2 = [86, 3] :=
  ⟨fun hm =>
      claim8_thm.1 { initSt with override := true, vol := 3 } [] [] rfl rfl
        (0x900, 1) hm rfl,
   claim8_thm.2.1 initSt [] [] rfl,
   claim8_thm.2.2 { initSt with override := true, vol := 3 } [] [] rfl (by decide)⟩

/-- The single-track image file of the C8 counterexample. -/
def fileC8 : List Nat := List.replicate 2560 0

/-- The session state after the volume ack of the C8 counterexample
run. -/
def stWa : St := { stW with char_of_wait := PyVal.pyBytes [86] }

/-- The session state after the interleave ack of the C8
counterexample run. -/
def stWb : St := { stW with char_of_wait := PyVal.pyBytes [73] }

/-- The first image-file read of a started track loop is the
whole-track read at the current position. -/
theorem writeTracks_reads_head (file : List Nat) (tsz n : Nat) (st : St) (pos : Nat)
    (inp : List (Option Nat)) :
    (writeTracks file tsz (n + 1) st pos inp).reads.head? = some (pos, tsz) := by
  simp only [writeTracks]
  split
  · rfl
  · cases hw : wait_char 87 inp st with
    | none => rfl
    | some q =>
      obtain ⟨st1, inp1⟩ := q
      rfl

/-- Counterexample to C8 as stated: with override set, a write_disk
run still reads the byte at file offset 0x900 - the whole-track read
at offset 0 spans 2560 bytes and 0x900 = 2304 lies inside it, and the
byte value is transmitted to the device as track data - so the byte is
not "never read" when override is true. -/
theorem claim8_cex :
    stW.override = true
    ∧ ((0 : Nat), (2560 : Nat)) ∈ (write_disk stW true Dir.toH89 fileC8
        [some 86, some 73, some 87]).fileReads
    ∧ (0 : Nat) ≤ 0x900 ∧ (0x900 : Nat) < 0 + 2560 := by
  refine ⟨rfl, ?_, by decide, by decide⟩
  have hov : stW.override = true := rfl
  have hsv : send_volume stW (some stW.vol) [some 86, some 73, some 87]
      = ([86, 0], SvRes.ok stWa [some 73, some 87]) := by rfl
  have hw2 : wait_char 73 [some 73, some 87] stWa = some (stWb, [some 87]) := by rfl
  have hts : stWb.track_size = 2560 := rfl
  have hnt : stWb.num_tracks = 40 := rfl
  have hh : (writeTracks fileC8 2560 40 stWb 0 [some 87]).reads.head?
      = some (0, 2560) := writeTracks_reads_head fileC8 2560 39 stWb 0 [some 87]
  have hm : ((0 : Nat), (2560 : Nat)) ∈ (writeTracks fileC8 2560 40 stWb 0 [some 87]).reads := by
    cases hr : (writeTracks fileC8 2560 40 stWb 0 [some 87]).reads with
    | nil => rw [hr] at hh; simp at hh
    | cons x xs =>
      rw [hr] at hh
      simp only [List.head?_cons, Option.some.injEq] at hh
      rw [← hh]
      simp
  cases ho : (writeTracks fileC8 2560 40 stWb 0 [some 87]).outcome with
  | short =>
    simp [write_disk, hov, hsv, hw2, hts, hnt, ho]
    exact hm
  | blocked =>
    simp [write_disk, hov, hsv, hw2, hts, hnt, ho]
    exact hm
  | ok =>
    simp [write_disk, hov, hsv, hw2, hts, hnt, ho]
    exact hm
